import Mathlib

/-!
Verification of the MarketSentinel decision & fund-allocation engine.

Shallow embedding of the Go sources:
  * `internal/model` (OHLCV, MarketIndicators, FactorScore, InvestmentTier,
    TradeSignal, FundState),
  * `internal/calculator` (rsi.go, range.go, extractCloses from ma.go),
  * `internal/strategy` (factors.go, evaluate: Tiers / mapTier / Evaluate),
  * `internal/fund/manager.go` (the dual-pool fund state machine).

Go `float64` values are modelled as exact rationals (ℚ); machine-float
rounding is outside the model.  Formatted commentary strings and the
timestamp bookkeeping fields (`LastReplenishAt`, `LastRebalanceAt`,
`UpdatedAt`) carry no logic and are omitted from the embedded records.
Persistence (`save`, `LoadState`, `SaveState`) is file I/O performed after
the in-memory mutation and does not affect the state transition itself, so
the fund operations are embedded as pure functions from the pre-state to
the post-state together with their returned values.
-/

namespace MarketSentinel

/-- model: one OHLCV candlestick bar (the `Time` field carries no logic used
by the claims and is modelled as a plain natural number). -/
structure OHLCV where
  time : ℕ
  open_ : ℚ
  high : ℚ
  low : ℚ
  close : ℚ
  volume : ℚ
deriving DecidableEq

/-- model.MarketIndicators: all computed technical indicators. -/
structure MarketIndicators where
  currentPrice : ℚ
  ma200 : ℚ
  ma20w : ℚ
  ma50w : ℚ
  weeklyRSI : ℚ
  dailyRSI : ℚ
  high52w : ℚ
  low52w : ℚ
  high30d : ℚ
  low30d : ℚ
  position52w : ℚ
deriving DecidableEq

/-- model.FactorScore: a single factor scoring result (commentary omitted). -/
structure FactorScore where
  name : String
  rawScore : ℚ
  weight : ℚ
  weighted : ℚ
deriving DecidableEq

/-- model.InvestmentTier: maps a total score range to an action. -/
structure InvestmentTier where
  label : String
  multiplier : ℚ
  useReserve : ℚ
deriving DecidableEq

/-- model.TriggerType. -/
inductive TriggerType where
  | weekly
  | bottomFish
  | takeProfit
  | monthly
  | quarterly
  | manual
deriving DecidableEq

/-- model.TradeSignal: the final output of the strategy engine. -/
structure TradeSignal where
  factors : List FactorScore
  totalScore : ℚ
  tier : InvestmentTier
  baseAmount : ℚ
  finalAmount : ℚ
  reserveUsed : ℚ
  triggerType : TriggerType
  warningMsg : String
deriving DecidableEq

/-- model.FundState: the dual-pool fund status (timestamps omitted). -/
structure FundState where
  monthlyBudget : ℚ
  weeklyBaseN : ℚ
  regularBalance : ℚ
  reserveBalance : ℚ
  bottomFishUsedThisWeek : Bool
  consecutiveHighScoreWeeks : ℤ
  recentScores : List ℚ
deriving DecidableEq

/-- fund.Manager.GetState: returns a copy of the current fund state. -/
def getState (st : FundState) : FundState := st

/-- fund.Manager.CalculateWeeklyInvestment: computes the weekly investment
amount based on the signal tier.  Returns the post-state together with
`(finalAmount, reserveUsed)`. -/
def calculateWeeklyInvestment (st : FundState) (signal : TradeSignal) :
    FundState × ℚ × ℚ :=
  let baseN := st.weeklyBaseN
  let regularAmount0 := baseN * signal.tier.multiplier
  let reserveAmount0 := baseN * signal.tier.useReserve
  -- Cap to available balances
  let regularAmount :=
    if regularAmount0 > st.regularBalance then st.regularBalance else regularAmount0
  let reserveAmount :=
    if reserveAmount0 > st.reserveBalance then st.reserveBalance else reserveAmount0
  -- Track score
  let scores0 := st.recentScores ++ [signal.totalScore]
  let scores := if scores0.length > 12 then scores0.drop (scores0.length - 12) else scores0
  -- Track consecutive high-score weeks
  let streak :=
    if signal.totalScore > 1 then st.consecutiveHighScoreWeeks + 1 else 0
  ({ st with
      regularBalance := st.regularBalance - regularAmount
      reserveBalance := st.reserveBalance - reserveAmount
      recentScores := scores
      consecutiveHighScoreWeeks := streak },
   regularAmount + reserveAmount, reserveAmount)

/-- The score-band multiplier selected inside CalculateBottomFishInvestment. -/
def bottomFishMultiplier (totalScore : ℚ) : ℚ :=
  if totalScore > 1 then 1.5
  else if totalScore > 0 then 1.0
  else if totalScore < -0.5 then 0.5
  else 0.75

/-- fund.Manager.CalculateBottomFishInvestment: intra-week RSI<30
bottom-fishing, funded from the reserve pool, at most once per week.
Returns the post-state together with `(amount, triggered)`. -/
def calculateBottomFishInvestment (st : FundState) (totalScore : ℚ) :
    FundState × ℚ × Bool :=
  if st.bottomFishUsedThisWeek then (st, 0, false)
  else
    let baseN := st.weeklyBaseN
    let amount0 := baseN * bottomFishMultiplier totalScore
    let amount := if amount0 > st.reserveBalance then st.reserveBalance else amount0
    ({ st with
        reserveBalance := st.reserveBalance - amount
        bottomFishUsedThisWeek := true },
     amount, true)

/-- fund.Manager.MonthlyReplenish: refills both pools from the monthly budget. -/
def monthlyReplenish (st : FundState) : FundState :=
  { st with
      regularBalance := st.regularBalance + st.monthlyBudget * 0.70
      reserveBalance := st.reserveBalance + st.monthlyBudget * 0.30 }

/-- fund.Manager.QuarterlyRebalance: adjusts the reserve pool.  Returns the
post-state together with the message string. -/
def quarterlyRebalance (st : FundState) : FundState × String :=
  let baseN := st.weeklyBaseN
  if st.reserveBalance > 6 * baseN then
    let excess := st.reserveBalance - 6 * baseN
    ({ st with
        reserveBalance := st.reserveBalance - excess
        regularBalance := st.regularBalance + excess },
     "储备池超额，已转回常规池")
  else if st.consecutiveHighScoreWeeks ≥ 4 ∧ st.reserveBalance < 3 * baseN then
    let topUp := 3 * baseN - st.reserveBalance
    ({ st with reserveBalance := st.reserveBalance + topUp },
     "连续高分+储备不足，紧急补充储备池")
  else
    (st, "季度再平衡：无需调整")

/-- fund.Manager.ResetWeeklyFlags: resets per-week flags (called every Monday). -/
def resetWeeklyFlags (st : FundState) : FundState :=
  { st with bottomFishUsedThisWeek := false }

/-- calculator/ma.go extractCloses: the close of every bar, in order. -/
def extractCloses (bars : List OHLCV) : List ℚ :=
  bars.map OHLCV.close

/-- The consecutive differences `closes[i] - closes[i-1]`, for i = 1.. -/
def closeChanges (closes : List ℚ) : List ℚ :=
  (closes.zip closes.tail).map (fun p => p.2 - p.1)

/-- Gain part of a price change (`change` when positive, else 0). -/
def gainOf (change : ℚ) : ℚ :=
  if change > 0 then change else 0

/-- Loss part of a price change, stored as a positive magnitude. -/
def lossOf (change : ℚ) : ℚ :=
  if change > 0 then 0 else -change

/-- One step of Wilder smoothing over the running (avgGain, avgLoss) pair:
`avg = (avg*(period-1) + newValue)/period` for both streams. -/
def wilderStep (period : ℕ) (avg : ℚ × ℚ) (change : ℚ) : ℚ × ℚ :=
  ((avg.1 * ((period - 1 : ℕ) : ℚ) + gainOf change) / (period : ℚ),
   (avg.2 * ((period - 1 : ℕ) : ℚ) + lossOf change) / (period : ℚ))

/-- The smoothed (avgGain, avgLoss) pair computed by CalculateRSI: seed
averages over the first `period` changes, then Wilder smoothing over the
remaining changes. -/
def rsiAverages (closes : List ℚ) (period : ℕ) : ℚ × ℚ :=
  let ds := closeChanges closes
  let seedGain := ((ds.take period).map gainOf).sum / (period : ℚ)
  let seedLoss := ((ds.take period).map lossOf).sum / (period : ℚ)
  (ds.drop period).foldl (wilderStep period) (seedGain, seedLoss)

/-- calculator/rsi.go CalculateRSI: Wilder-smoothed RSI over the given
period; 50.0 when fewer than period+1 bars are available. -/
def CalculateRSI (bars : List OHLCV) (period : ℕ) : Except String ℚ :=
  if period = 0 then .error "period must be positive"
  else if bars.length < period + 1 then .ok 50.0
  else
    let avgs := rsiAverages (extractCloses bars) period
    if avgs.2 = 0 then .ok 100.0
    else
      let rs := avgs.1 / avgs.2
      .ok (100.0 - 100.0 / (1.0 + rs))

/-- calculator/range.go Calculate52WeekPosition: where the current price
sits within the 52-week range (0.0~1.0). -/
def Calculate52WeekPosition (current high low : ℚ) : Except String ℚ :=
  if high = low then .ok 0.5
  else if high < low then .error "high must be >= low"
  else
    let pos0 := (current - low) / (high - low)
    let pos1 := if pos0 < 0 then 0 else pos0
    let pos2 := if pos1 > 1 then 1 else pos1
    .ok pos2

/-- strategy/factors.go scoreMA200Deviation (weight 0.35). -/
def scoreMA200Deviation (ind : MarketIndicators) : FactorScore :=
  if ind.ma200 = 0 then
    { name := "MA200偏离度", rawScore := 0, weight := 0.35, weighted := 0 }
  else
    let deviation := (ind.currentPrice - ind.ma200) / ind.ma200 * 100
    let score : ℚ :=
      if deviation ≤ -20 then 2.0
      else if deviation ≤ -10 then 1.5
      else if deviation ≤ -5 then 1.0
      else if deviation ≤ 0 then 0.5
      else if deviation ≤ 5 then 0
      else if deviation ≤ 10 then -0.5
      else if deviation ≤ 15 then -1.0
      else if deviation ≤ 20 then -1.5
      else -2.0
    { name := "MA200偏离度", rawScore := score, weight := 0.35,
      weighted := score * 0.35 }

/-- The shared 9-bucket RSI score ladder of scoreWeeklyRSI / scoreDailyRSI. -/
def rsiLadder (rsi : ℚ) : ℚ :=
  if rsi ≤ 25 then 2.0
  else if rsi ≤ 30 then 1.5
  else if rsi ≤ 40 then 1.0
  else if rsi ≤ 45 then 0.5
  else if rsi ≤ 55 then 0
  else if rsi ≤ 60 then -0.5
  else if rsi ≤ 70 then -1.0
  else if rsi ≤ 80 then -1.5
  else -2.0

/-- strategy/factors.go scoreWeeklyRSI (weight 0.25). -/
def scoreWeeklyRSI (ind : MarketIndicators) : FactorScore :=
  let score := rsiLadder ind.weeklyRSI
  { name := "周线RSI", rawScore := score, weight := 0.25, weighted := score * 0.25 }

/-- strategy/factors.go scoreDailyRSI (weight 0.15). -/
def scoreDailyRSI (ind : MarketIndicators) : FactorScore :=
  let score := rsiLadder ind.dailyRSI
  { name := "日线RSI", rawScore := score, weight := 0.15, weighted := score * 0.15 }

/-- strategy/factors.go score52WeekPosition (weight 0.10).  When the
position is above 95%, requires `otherFactorsAvg < -1` to give -2,
otherwise caps at -1. -/
def score52WeekPosition (ind : MarketIndicators) (otherAvg : ℚ) : FactorScore :=
  let pos := ind.position52w * 100
  let score : ℚ :=
    if pos ≤ 10 then 2.0
    else if pos ≤ 20 then 1.5
    else if pos ≤ 30 then 1.0
    else if pos ≤ 40 then 0.5
    else if pos ≤ 60 then 0
    else if pos ≤ 70 then -0.5
    else if pos ≤ 80 then -1.0
    else if pos ≤ 95 then -1.5
    else if otherAvg < -1 then -2.0
    else -1.0
  { name := "52周位置", rawScore := score, weight := 0.10, weighted := score * 0.10 }

/-- strategy/factors.go scoreTrendTracker (weight 0.15): MA alignment and
30-day extremes. -/
def scoreTrendTracker (ind : MarketIndicators) : FactorScore :=
  let bullish := ind.currentPrice > ind.ma20w ∧ ind.ma20w > ind.ma50w
  let bearish := ind.currentPrice < ind.ma20w ∧ ind.ma20w < ind.ma50w
  let near30dHigh := |ind.currentPrice - ind.high30d| / ind.high30d < 0.01
  let near30dLow := |ind.currentPrice - ind.low30d| / ind.low30d < 0.01
  let score : ℚ :=
    if bullish ∧ near30dHigh then 1.5
    else if bullish then 1.0
    else if bearish ∧ near30dLow then -1.0
    else if bearish then -0.5
    else 0
  { name := "趋势追踪", rawScore := score, weight := 0.15, weighted := score * 0.15 }

/-- One row of the strategy Tiers table. -/
structure TierRule where
  minScore : ℚ
  tier : InvestmentTier
deriving DecidableEq

/-- strategy Tiers: the 7-level investment mapping (six rows plus the floor). -/
def Tiers : List TierRule :=
  [⟨1.5, { label := "极限重仓", multiplier := 1.0, useReserve := 1.5 }⟩,
   ⟨1.2, { label := "重仓买入", multiplier := 1.0, useReserve := 1.0 }⟩,
   ⟨0.8, { label := "加仓买入", multiplier := 1.0, useReserve := 0.5 }⟩,
   ⟨0.0, { label := "正常定投", multiplier := 1.0, useReserve := 0 }⟩,
   ⟨-0.8, { label := "缩减定投", multiplier := 0.5, useReserve := 0 }⟩,
   ⟨-1.5, { label := "轻仓观望", multiplier := 0.25, useReserve := 0 }⟩]

/-- strategy DefaultTier: the lowest tier for scores < -1.5. -/
def DefaultTier : InvestmentTier :=
  { label := "最低参与", multiplier := 0.15, useReserve := 0 }

/-- strategy mapTier: first row of the Tiers table whose threshold the
score meets-or-exceeds, else the floor default. -/
def mapTier (totalScore : ℚ) : InvestmentTier :=
  match Tiers.find? (fun t => decide (totalScore ≥ t.minScore)) with
  | some t => t.tier
  | none => DefaultTier

/-- The arithmetic mean of the four raw scores other than the 52-week
position factor, exactly as computed in Evaluate (step b). -/
def otherFactorsAvg (ind : MarketIndicators) : ℚ :=
  ((scoreMA200Deviation ind).rawScore + (scoreWeeklyRSI ind).rawScore +
   (scoreDailyRSI ind).rawScore + (scoreTrendTracker ind).rawScore) / 4.0

/-- strategy Evaluate: computes the full trade signal from market
indicators. -/
def Evaluate (ind : MarketIndicators) : TradeSignal :=
  -- Step a: compute factors 1, 2, 3, 5
  let f1 := scoreMA200Deviation ind
  let f2 := scoreWeeklyRSI ind
  let f3 := scoreDailyRSI ind
  let f5 := scoreTrendTracker ind
  -- Step b: compute otherFactorsAvg for factor 4
  -- Step c: compute factor 4 with the avg
  let f4 := score52WeekPosition ind (otherFactorsAvg ind)
  -- Step d: weighted sum
  let totalScore := f1.weighted + f2.weighted + f3.weighted + f4.weighted + f5.weighted
  -- Step e: map to tier; Step f: take-profit warning
  { factors := [f1, f2, f3, f4, f5]
    totalScore := totalScore
    tier := mapTier totalScore
    baseAmount := 0
    finalAmount := 0
    reserveUsed := 0
    triggerType := .weekly
    warningMsg :=
      if ind.weeklyRSI > 85 ∨ ind.dailyRSI > 85 then
        "⚠️ RSI > 85 止盈预警：建议考虑部分止盈"
      else "" }

/-- A Fund State Machine operation, for reasoning about operation
sequences. -/
inductive FundOp where
  | weekly (signal : TradeSignal)
  | bottomFish (totalScore : ℚ)
  | monthly
  | quarterly
  | reset
deriving DecidableEq

/-- State transition of one Fund State Machine operation. -/
def applyOp (st : FundState) : FundOp → FundState
  | .weekly signal => (calculateWeeklyInvestment st signal).1
  | .bottomFish s => (calculateBottomFishInvestment st s).1
  | .monthly => monthlyReplenish st
  | .quarterly => (quarterlyRebalance st).1
  | .reset => resetWeeklyFlags st

/-- Run a sequence of Fund State Machine operations. -/
def runOps (st : FundState) (ops : List FundOp) : FundState :=
  ops.foldl applyOp st

/-- How many operations of the sequence are bottom-fish calls that return
`triggered = true`, starting from state `st`. -/
def bottomFishTriggeredCount (st : FundState) : List FundOp → ℕ
  | [] => 0
  | op :: ops =>
      (match op with
       | .bottomFish s => if (calculateBottomFishInvestment st s).2.2 then 1 else 0
       | _ => 0) + bottomFishTriggeredCount (applyOp st op) ops

/-!
Model of the Go slice underlying `FundState.RecentScores`, for the
snapshot claim about `GetState`.  In Go, `GetState` copies the struct, so
the returned value holds a copy of the slice *header* (offset and length
into the shared backing array), not of the elements.  `start` and `len`
are the header; `arr` is the shared backing array.  `append` writes at
array position `start + len`: in place when capacity remains, into a fresh
larger array otherwise — the model below extends the same array in place,
which is the maximal-sharing (worst) case for the snapshot.
-/
structure ScoresBuf where
  arr : List ℚ
  start : ℕ
  len : ℕ
deriving DecidableEq

/-- Well-formedness of a slice header against its backing array. -/
def ScoresBuf.WF (b : ScoresBuf) : Prop :=
  b.start + b.len ≤ b.arr.length

/-- The elements a slice header reads from the backing array. -/
def viewSlice (arr : List ℚ) (start len : ℕ) : List ℚ :=
  (arr.drop start).take len

/-- The RecentScores update of CalculateWeeklyInvestment on the slice
model: `append` one score at array position `start + len`, then, when the
length exceeds 12, re-slice to the last 12 elements
(`RecentScores[len-12:]` advances the header offset; it writes nothing). -/
def pushScore (b : ScoresBuf) (x : ℚ) : ScoresBuf :=
  let pos := b.start + b.len
  let arr := b.arr.take pos ++ [x] ++ b.arr.drop (pos + 1)
  let len := b.len + 1
  if len > 12 then ⟨arr, b.start + (len - 12), 12⟩
  else ⟨arr, b.start, len⟩

/-- The bottom-fish score-band multiplier is nonnegative. -/
lemma bottomFishMultiplier_nonneg (s : ℚ) : 0 ≤ bottomFishMultiplier s := by
  unfold bottomFishMultiplier
  split_ifs <;> norm_num

/-- A sample tier, signal and state used to instantiate the theorems. -/
def sampleTier : InvestmentTier :=
  { label := "正常定投", multiplier := 1.0, useReserve := 0 }

def sampleSignal : TradeSignal :=
  { factors := [], totalScore := 0.5, tier := sampleTier, baseAmount := 0,
    finalAmount := 0, reserveUsed := 0, triggerType := .weekly, warningMsg := "" }

def sampleState : FundState :=
  { monthlyBudget := 3000, weeklyBaseN := 485, regularBalance := 2100,
    reserveBalance := 900, bottomFishUsedThisWeek := false,
    consecutiveHighScoreWeeks := 0, recentScores := [] }

/-- C1: for every FundState whose regular and reserve balances, WeeklyBaseN,
and MonthlyBudget are nonnegative, and for every signal whose tier
Multiplier and UseReserve are nonnegative, each Fund State Machine
operation (CalculateWeeklyInvestment, CalculateBottomFishInvestment,
MonthlyReplenish, QuarterlyRebalance, ResetWeeklyFlags) leaves both pool
balances nonnegative: every withdrawal is capped at the available balance
of the pool it draws from. -/
theorem fund_ops_preserve_nonneg (st : FundState) (signal : TradeSignal) (s : ℚ)
    (hreg : 0 ≤ st.regularBalance) (hres : 0 ≤ st.reserveBalance)
    (hN : 0 ≤ st.weeklyBaseN) (hB : 0 ≤ st.monthlyBudget)
    (hm : 0 ≤ signal.tier.multiplier) (hu : 0 ≤ signal.tier.useReserve) :
    (0 ≤ (calculateWeeklyInvestment st signal).1.regularBalance ∧
     0 ≤ (calculateWeeklyInvestment st signal).1.reserveBalance) ∧
    (0 ≤ (calculateBottomFishInvestment st s).1.regularBalance ∧
     0 ≤ (calculateBottomFishInvestment st s).1.reserveBalance) ∧
    (0 ≤ (monthlyReplenish st).regularBalance ∧
     0 ≤ (monthlyReplenish st).reserveBalance) ∧
    (0 ≤ (quarterlyRebalance st).1.regularBalance ∧
     0 ≤ (quarterlyRebalance st).1.reserveBalance) ∧
    (0 ≤ (resetWeeklyFlags st).regularBalance ∧
     0 ≤ (resetWeeklyFlags st).reserveBalance) := by
  have hmul1 : 0 ≤ st.weeklyBaseN * signal.tier.multiplier := mul_nonneg hN hm
  have hmul2 : 0 ≤ st.weeklyBaseN * signal.tier.useReserve := mul_nonneg hN hu
  have hmul3 : 0 ≤ st.weeklyBaseN * bottomFishMultiplier s :=
    mul_nonneg hN (bottomFishMultiplier_nonneg s)
  refine ⟨⟨?_, ?_⟩, ⟨?_, ?_⟩, ⟨?_, ?_⟩, ⟨?_, ?_⟩, ⟨?_, ?_⟩⟩ <;>
    simp only [calculateWeeklyInvestment, calculateBottomFishInvestment,
      monthlyReplenish, quarterlyRebalance, resetWeeklyFlags] <;>
    first
      | linarith
      | (split_ifs <;> (try dsimp only) <;> linarith)

/-- C1 witness: the operations applied to a concrete state and signal. -/
theorem fund_ops_preserve_nonneg_witness :
    (0 ≤ (calculateWeeklyInvestment sampleState sampleSignal).1.regularBalance ∧
     0 ≤ (calculateWeeklyInvestment sampleState sampleSignal).1.reserveBalance) ∧
    (0 ≤ (calculateBottomFishInvestment sampleState 0).1.regularBalance ∧
     0 ≤ (calculateBottomFishInvestment sampleState 0).1.reserveBalance) ∧
    (0 ≤ (monthlyReplenish sampleState).regularBalance ∧
     0 ≤ (monthlyReplenish sampleState).reserveBalance) ∧
    (0 ≤ (quarterlyRebalance sampleState).1.regularBalance ∧
     0 ≤ (quarterlyRebalance sampleState).1.reserveBalance) ∧
    (0 ≤ (resetWeeklyFlags sampleState).regularBalance ∧
     0 ≤ (resetWeeklyFlags sampleState).reserveBalance) :=
  fund_ops_preserve_nonneg sampleState sampleSignal 0
    (by norm_num [sampleState]) (by norm_num [sampleState])
    (by norm_num [sampleState]) (by norm_num [sampleState])
    (by norm_num [sampleSignal, sampleTier]) (by norm_num [sampleSignal, sampleTier])

/-- C3: with WeeklyBaseN = N ≥ 0, QuarterlyRebalance executes exactly one
of three mutually exclusive branches: if reserve > 6N it sets reserve to
exactly 6N and adds the excess to regular (pool sum unchanged); else if
ConsecutiveHighScoreWeeks ≥ 4 and reserve < 3N it sets reserve to exactly
3N leaving regular unchanged; otherwise it changes neither balance. -/
theorem quarterlyRebalance_branches (st : FundState) (hN : 0 ≤ st.weeklyBaseN) :
    (st.reserveBalance > 6 * st.weeklyBaseN →
      (quarterlyRebalance st).1.reserveBalance = 6 * st.weeklyBaseN ∧
      (quarterlyRebalance st).1.regularBalance =
        st.regularBalance + (st.reserveBalance - 6 * st.weeklyBaseN) ∧
      (quarterlyRebalance st).1.regularBalance + (quarterlyRebalance st).1.reserveBalance =
        st.regularBalance + st.reserveBalance) ∧
    (st.consecutiveHighScoreWeeks ≥ 4 ∧ st.reserveBalance < 3 * st.weeklyBaseN →
      (quarterlyRebalance st).1.reserveBalance = 3 * st.weeklyBaseN ∧
      (quarterlyRebalance st).1.regularBalance = st.regularBalance) ∧
    (¬ st.reserveBalance > 6 * st.weeklyBaseN →
      ¬ (st.consecutiveHighScoreWeeks ≥ 4 ∧ st.reserveBalance < 3 * st.weeklyBaseN) →
      (quarterlyRebalance st).1 = st) ∧
    ¬ (st.reserveBalance > 6 * st.weeklyBaseN ∧
       st.consecutiveHighScoreWeeks ≥ 4 ∧ st.reserveBalance < 3 * st.weeklyBaseN) := by
  refine ⟨?_, ?_, ?_, ?_⟩
  · intro h
    simp only [quarterlyRebalance, if_pos h]
    refine ⟨by ring_nf, by ring_nf, by ring_nf⟩
  · rintro ⟨h4, h3⟩
    have h6 : ¬ st.reserveBalance > 6 * st.weeklyBaseN := by push_neg; linarith
    simp only [quarterlyRebalance, if_neg h6, if_pos (And.intro h4 h3)]
    exact ⟨by ring_nf, by first | rfl | trivial⟩
  · intro h1 h2
    simp only [quarterlyRebalance, if_neg h1, if_neg h2]
  · rintro ⟨h1, _, h3⟩
    linarith

/-- C3 witness: the rebalance branches at a concrete state. -/
theorem quarterlyRebalance_branches_witness :
    (sampleState.reserveBalance > 6 * sampleState.weeklyBaseN →
      (quarterlyRebalance sampleState).1.reserveBalance = 6 * sampleState.weeklyBaseN ∧
      (quarterlyRebalance sampleState).1.regularBalance =
        sampleState.regularBalance + (sampleState.reserveBalance - 6 * sampleState.weeklyBaseN) ∧
      (quarterlyRebalance sampleState).1.regularBalance +
          (quarterlyRebalance sampleState).1.reserveBalance =
        sampleState.regularBalance + sampleState.reserveBalance) ∧
    (sampleState.consecutiveHighScoreWeeks ≥ 4 ∧
        sampleState.reserveBalance < 3 * sampleState.weeklyBaseN →
      (quarterlyRebalance sampleState).1.reserveBalance = 3 * sampleState.weeklyBaseN ∧
      (quarterlyRebalance sampleState).1.regularBalance = sampleState.regularBalance) ∧
    (¬ sampleState.reserveBalance > 6 * sampleState.weeklyBaseN →
      ¬ (sampleState.consecutiveHighScoreWeeks ≥ 4 ∧
          sampleState.reserveBalance < 3 * sampleState.weeklyBaseN) →
      (quarterlyRebalance sampleState).1 = sampleState) ∧
    ¬ (sampleState.reserveBalance > 6 * sampleState.weeklyBaseN ∧
       sampleState.consecutiveHighScoreWeeks ≥ 4 ∧
       sampleState.reserveBalance < 3 * sampleState.weeklyBaseN) :=
  quarterlyRebalance_branches sampleState (by norm_num [sampleState])

/-- C4: mapTier is total and deterministic over all scores, resolved
first-match-wins against the descending thresholds
1.5 / 1.2 / 0.8 / 0.0 / -0.8 / -1.5 with the floor default tier; at the
boundaries, mapTier 1.5 is the extreme-heavy tier, mapTier 1.49999 is
heavy, mapTier (-1.5) is light/watch, and mapTier (-1.50001) is the
minimum tier. -/
theorem mapTier_total_first_match (s : ℚ) :
    mapTier s =
      (if s ≥ 1.5 then { label := "极限重仓", multiplier := 1.0, useReserve := 1.5 }
       else if s ≥ 1.2 then { label := "重仓买入", multiplier := 1.0, useReserve := 1.0 }
       else if s ≥ 0.8 then { label := "加仓买入", multiplier := 1.0, useReserve := 0.5 }
       else if s ≥ 0.0 then { label := "正常定投", multiplier := 1.0, useReserve := 0 }
       else if s ≥ -0.8 then { label := "缩减定投", multiplier := 0.5, useReserve := 0 }
       else if s ≥ -1.5 then { label := "轻仓观望", multiplier := 0.25, useReserve := 0 }
       else DefaultTier) ∧
    mapTier 1.5 = { label := "极限重仓", multiplier := 1.0, useReserve := 1.5 } ∧
    mapTier 1.49999 = { label := "重仓买入", multiplier := 1.0, useReserve := 1.0 } ∧
    mapTier (-1.5) = { label := "轻仓观望", multiplier := 0.25, useReserve := 0 } ∧
    mapTier (-1.50001) = DefaultTier := by
  refine ⟨?_, ?_, ?_, ?_, ?_⟩
  · by_cases h1 : s ≥ (1.5 : ℚ) <;> by_cases h2 : s ≥ (1.2 : ℚ) <;>
      by_cases h3 : s ≥ (0.8 : ℚ) <;> by_cases h4 : s ≥ (0.0 : ℚ) <;>
      by_cases h5 : s ≥ (-0.8 : ℚ) <;> by_cases h6 : s ≥ (-1.5 : ℚ) <;>
      simp [mapTier, Tiers, List.find?, h1, h2, h3, h4, h5, h6]
  · norm_num [mapTier, Tiers, List.find?]
  · norm_num [mapTier, Tiers, List.find?]
  · norm_num [mapTier, Tiers, List.find?]
  · norm_num [mapTier, Tiers, List.find?, DefaultTier]

/-- The bottom-fish flag, once set, stays set under every operation other
than ResetWeeklyFlags. -/
lemma applyOp_keeps_flag (st : FundState) (op : FundOp) (hop : op ≠ FundOp.reset)
    (h : st.bottomFishUsedThisWeek = true) :
    (applyOp st op).bottomFishUsedThisWeek = true := by
  cases op with
  | weekly signal => simpa [applyOp, calculateWeeklyInvestment] using h
  | bottomFish s => simp [applyOp, calculateBottomFishInvestment, h]
  | monthly => simpa [applyOp, monthlyReplenish] using h
  | quarterly =>
      simp only [applyOp, quarterlyRebalance]
      split_ifs <;> simpa using h
  | reset => exact absurd rfl hop

/-- Every operation other than a triggered bottom-fish and the weekly
reset leaves the flag unchanged. -/
lemma applyOp_flag_of_not_bottomFish (st : FundState) (op : FundOp)
    (hop : op ≠ FundOp.reset) (hbf : ∀ q : ℚ, op ≠ FundOp.bottomFish q) :
    (applyOp st op).bottomFishUsedThisWeek = st.bottomFishUsedThisWeek := by
  cases op with
  | weekly signal => simp [applyOp, calculateWeeklyInvestment]
  | bottomFish s => exact absurd rfl (hbf s)
  | monthly => simp [applyOp, monthlyReplenish]
  | quarterly =>
      simp only [applyOp, quarterlyRebalance]
      split_ifs <;> simp
  | reset => exact absurd rfl hop

/-- In a reset-free run, the number of triggered bottom-fish calls is
bounded by one when the flag starts clear and by zero when it starts set. -/
lemma bottomFishTriggeredCount_le (st : FundState) (ops : List FundOp)
    (hnr : ∀ op ∈ ops, op ≠ FundOp.reset) :
    bottomFishTriggeredCount st ops ≤
      (if st.bottomFishUsedThisWeek = true then 0 else 1) := by
  induction ops generalizing st with
  | nil => simp [bottomFishTriggeredCount]
  | cons op ops ih =>
      have hop : op ≠ FundOp.reset := hnr op (List.mem_cons_self op ops)
      have hnr' : ∀ o ∈ ops, o ≠ FundOp.reset := fun o ho => hnr o (List.mem_cons_of_mem op ho)
      have htail := ih (applyOp st op) hnr'
      by_cases hflag : st.bottomFishUsedThisWeek = true
      · have hflag' : (applyOp st op).bottomFishUsedThisWeek = true :=
          applyOp_keeps_flag st op hop hflag
        rw [hflag'] at htail
        rw [if_pos hflag]
        cases op with
        | bottomFish s =>
            simpa [bottomFishTriggeredCount, calculateBottomFishInvestment, hflag] using htail
        | weekly signal => simpa [bottomFishTriggeredCount] using htail
        | monthly => simpa [bottomFishTriggeredCount] using htail
        | quarterly => simpa [bottomFishTriggeredCount] using htail
        | reset => exact absurd rfl hop
      · rw [if_neg hflag]
        cases op with
        | bottomFish s =>
            have hflag' : (applyOp st (FundOp.bottomFish s)).bottomFishUsedThisWeek = true := by
              simp [applyOp, calculateBottomFishInvestment, hflag]
            rw [hflag'] at htail
            simp at htail
            have htrig : (calculateBottomFishInvestment st s).2.2 = true := by
              simp [calculateBottomFishInvestment, hflag]
            simp only [bottomFishTriggeredCount, htrig, if_pos]
            omega
        | weekly signal =>
            have hflag' : (applyOp st (FundOp.weekly signal)).bottomFishUsedThisWeek =
                st.bottomFishUsedThisWeek :=
              applyOp_flag_of_not_bottomFish st _ (by simp) (by simp)
            rw [hflag', if_neg hflag] at htail
            simpa [bottomFishTriggeredCount] using htail
        | monthly =>
            have hflag' : (applyOp st FundOp.monthly).bottomFishUsedThisWeek =
                st.bottomFishUsedThisWeek :=
              applyOp_flag_of_not_bottomFish st _ (by simp) (by simp)
            rw [hflag', if_neg hflag] at htail
            simpa [bottomFishTriggeredCount] using htail
        | quarterly =>
            have hflag' : (applyOp st FundOp.quarterly).bottomFishUsedThisWeek =
                st.bottomFishUsedThisWeek :=
              applyOp_flag_of_not_bottomFish st _ (by simp) (by simp)
            rw [hflag', if_neg hflag] at htail
            simpa [bottomFishTriggeredCount] using htail
        | reset => exact absurd rfl hop

/-- C2: in every sequence of Fund State Machine operations containing no
ResetWeeklyFlags call, at most one CalculateBottomFishInvestment call
returns triggered=true; moreover a call made while the weekly bottom-fish
flag is unset always returns triggered=true (never rejected for
insufficient funds), withdraws only from the reserve pool capped at the
reserve balance, and sets the flag. -/
theorem bottomFish_once_per_week (st : FundState) (ops : List FundOp) (s : ℚ)
    (hnr : ∀ op ∈ ops, op ≠ FundOp.reset) :
    bottomFishTriggeredCount st ops ≤ 1 ∧
    (st.bottomFishUsedThisWeek = false →
      (calculateBottomFishInvestment st s).2.2 = true ∧
      (calculateBottomFishInvestment st s).2.1 =
        min (st.weeklyBaseN * bottomFishMultiplier s) st.reserveBalance ∧
      (calculateBottomFishInvestment st s).1.reserveBalance =
        st.reserveBalance - (calculateBottomFishInvestment st s).2.1 ∧
      (calculateBottomFishInvestment st s).1.regularBalance = st.regularBalance ∧
      (calculateBottomFishInvestment st s).1.bottomFishUsedThisWeek = true) := by
  constructor
  · have h := bottomFishTriggeredCount_le st ops hnr
    refine h.trans ?_
    split_ifs <;> omega
  · intro hflag
    have hflag' : ¬ st.bottomFishUsedThisWeek = true := by simp [hflag]
    refine ⟨?_, ?_, ?_, ?_, ?_⟩
    · simp [calculateBottomFishInvestment, hflag']
    · simp only [calculateBottomFishInvestment, if_neg hflag']
      split_ifs with h
      · exact (min_eq_right h.le).symm
      · exact (min_eq_left (le_of_not_lt h)).symm
    · simp [calculateBottomFishInvestment, hflag']
    · simp [calculateBottomFishInvestment, hflag']
    · simp [calculateBottomFishInvestment, hflag']

/-- C2 witness: a reset-free trace and a flag-clear call at a concrete
state. -/
theorem bottomFish_once_per_week_witness :
    bottomFishTriggeredCount sampleState [FundOp.monthly, FundOp.bottomFish 0.2] ≤ 1 ∧
    (sampleState.bottomFishUsedThisWeek = false →
      (calculateBottomFishInvestment sampleState 0.2).2.2 = true ∧
      (calculateBottomFishInvestment sampleState 0.2).2.1 =
        min (sampleState.weeklyBaseN * bottomFishMultiplier 0.2) sampleState.reserveBalance ∧
      (calculateBottomFishInvestment sampleState 0.2).1.reserveBalance =
        sampleState.reserveBalance - (calculateBottomFishInvestment sampleState 0.2).2.1 ∧
      (calculateBottomFishInvestment sampleState 0.2).1.regularBalance =
        sampleState.regularBalance ∧
      (calculateBottomFishInvestment sampleState 0.2).1.bottomFishUsedThisWeek = true) :=
  bottomFish_once_per_week sampleState [FundOp.monthly, FundOp.bottomFish 0.2] 0.2
    (by intro op hop; simp only [List.mem_cons, List.not_mem_nil, or_false] at hop;
        rcases hop with h | h <;> simp [h])

/-- A concrete indicator set: price at 99% of its 52-week range, all other
factors neutral or better (their mean is ≥ -1). -/
def ind99 : MarketIndicators :=
  { currentPrice := 100, ma200 := 100, ma20w := 100, ma50w := 100,
    weeklyRSI := 50, dailyRSI := 50, high52w := 101, low52w := 1,
    high30d := 100, low30d := 100, position52w := 0.99 }

/-- C5: whenever Position52w×100 exceeds 95, the 52-week-position factor's
raw score is exactly -2.0 if the arithmetic mean of the other four
factors' raw scores is strictly below -1.0, and exactly -1.0 otherwise. -/
theorem position52w_special_case (ind : MarketIndicators)
    (h : 95 < ind.position52w * 100) :
    ((Evaluate ind).factors[3]?).map FactorScore.rawScore =
      some (if otherFactorsAvg ind < -1 then -2.0 else -1.0) := by
  have h10 : ¬ ind.position52w * 100 ≤ 10 := by linarith
  have h20 : ¬ ind.position52w * 100 ≤ 20 := by linarith
  have h30 : ¬ ind.position52w * 100 ≤ 30 := by linarith
  have h40 : ¬ ind.position52w * 100 ≤ 40 := by linarith
  have h60 : ¬ ind.position52w * 100 ≤ 60 := by linarith
  have h70 : ¬ ind.position52w * 100 ≤ 70 := by linarith
  have h80 : ¬ ind.position52w * 100 ≤ 80 := by linarith
  have h95 : ¬ ind.position52w * 100 ≤ 95 := by linarith
  simp [Evaluate, score52WeekPosition, h10, h20, h30, h40, h60, h70, h80, h95]

/-- C5 witness: Position52w = 0.99 with other-factors mean ≥ -1.0 gives a
raw position score of exactly -1.0. -/
theorem position52w_special_case_witness :
    ((Evaluate ind99).factors[3]?).map FactorScore.rawScore = some (-1.0) := by
  have h := position52w_special_case ind99 (by norm_num [ind99])
  rw [h]
  have havg : ¬ otherFactorsAvg ind99 < -1 := by
    norm_num [otherFactorsAvg, scoreMA200Deviation, scoreWeeklyRSI, scoreDailyRSI,
      scoreTrendTracker, rsiLadder, ind99]
  rw [if_neg havg]

/-- The MA200 factor's weight is 0.35 in both branches. -/
lemma scoreMA200Deviation_weight (ind : MarketIndicators) :
    (scoreMA200Deviation ind).weight = 0.35 := by
  unfold scoreMA200Deviation
  split_ifs <;> rfl

/-- The MA200 factor satisfies weighted = raw × weight. -/
lemma scoreMA200Deviation_weighted (ind : MarketIndicators) :
    (scoreMA200Deviation ind).weighted =
      (scoreMA200Deviation ind).rawScore * (scoreMA200Deviation ind).weight := by
  unfold scoreMA200Deviation
  split_ifs <;> norm_num

/-- C6: Evaluate produces exactly five factor scores with fixed weights
0.35, 0.25, 0.15, 0.10, 0.15 summing to exactly 1.0, each factor's
Weighted field equals RawScore×Weight, the signal's TotalScore equals the
sum of the five Weighted values, and the result is deterministic. -/
theorem evaluate_weighted_model (ind : MarketIndicators) :
    (Evaluate ind).factors.length = 5 ∧
    (Evaluate ind).factors.map FactorScore.weight = [0.35, 0.25, 0.15, 0.10, 0.15] ∧
    ((Evaluate ind).factors.map FactorScore.weight).sum = 1 ∧
    (∀ f ∈ (Evaluate ind).factors, f.weighted = f.rawScore * f.weight) ∧
    (Evaluate ind).totalScore = ((Evaluate ind).factors.map FactorScore.weighted).sum ∧
    (∀ ind2, ind = ind2 → Evaluate ind = Evaluate ind2) := by
  have hmap : (Evaluate ind).factors.map FactorScore.weight =
      [0.35, 0.25, 0.15, 0.10, 0.15] := by
    simp [Evaluate, scoreMA200Deviation_weight, scoreWeeklyRSI, scoreDailyRSI,
      score52WeekPosition, scoreTrendTracker]
  refine ⟨by simp [Evaluate], hmap, by rw [hmap]; norm_num, ?_, ?_, ?_⟩
  · intro f hf
    have hf' : f = scoreMA200Deviation ind ∨ f = scoreWeeklyRSI ind ∨
        f = scoreDailyRSI ind ∨ f = score52WeekPosition ind (otherFactorsAvg ind) ∨
        f = scoreTrendTracker ind := by
      simpa [Evaluate] using hf
    rcases hf' with h | h | h | h | h <;> subst h
    · exact scoreMA200Deviation_weighted ind
    · rfl
    · rfl
    · rfl
    · rfl
  · simp [Evaluate]
    ring_nf
  · intro ind2 h
    rw [h]

/-- C6 witness: the weighted model at a concrete indicator set. -/
theorem evaluate_weighted_model_witness :
    (Evaluate ind99).factors.length = 5 ∧
    (Evaluate ind99).factors.map FactorScore.weight = [0.35, 0.25, 0.15, 0.10, 0.15] ∧
    ((Evaluate ind99).factors.map FactorScore.weight).sum = 1 ∧
    (∀ f ∈ (Evaluate ind99).factors, f.weighted = f.rawScore * f.weight) ∧
    (Evaluate ind99).totalScore = ((Evaluate ind99).factors.map FactorScore.weighted).sum ∧
    (∀ ind2, ind99 = ind2 → Evaluate ind99 = Evaluate ind2) :=
  evaluate_weighted_model ind99

/-- Gains are nonnegative. -/
lemma gainOf_nonneg (c : ℚ) : 0 ≤ gainOf c := by
  unfold gainOf
  split_ifs with h <;> linarith

/-- Loss magnitudes are nonnegative. -/
lemma lossOf_nonneg (c : ℚ) : 0 ≤ lossOf c := by
  unfold lossOf
  split_ifs with h <;> linarith

/-- Wilder smoothing keeps both running averages nonnegative. -/
lemma foldl_wilderStep_nonneg (period : ℕ) (ds : List ℚ) (p : ℚ × ℚ)
    (h1 : 0 ≤ p.1) (h2 : 0 ≤ p.2) :
    0 ≤ (ds.foldl (wilderStep period) p).1 ∧
    0 ≤ (ds.foldl (wilderStep period) p).2 := by
  induction ds generalizing p with
  | nil => exact ⟨h1, h2⟩
  | cons c cs ih =>
      simp only [List.foldl_cons]
      refine ih (wilderStep period p c) ?_ ?_
      · exact div_nonneg
          (add_nonneg (mul_nonneg h1 (Nat.cast_nonneg _)) (gainOf_nonneg c))
          (Nat.cast_nonneg _)
      · exact div_nonneg
          (add_nonneg (mul_nonneg h2 (Nat.cast_nonneg _)) (lossOf_nonneg c))
          (Nat.cast_nonneg _)

/-- Both smoothed averages of CalculateRSI are nonnegative. -/
lemma rsiAverages_nonneg (closes : List ℚ) (period : ℕ) :
    0 ≤ (rsiAverages closes period).1 ∧ 0 ≤ (rsiAverages closes period).2 := by
  unfold rsiAverages
  refine foldl_wilderStep_nonneg period _ _ ?_ ?_
  · exact div_nonneg
      (List.sum_nonneg (by
        intro x hx
        obtain ⟨c, _, hc⟩ := List.mem_map.mp hx
        exact hc ▸ gainOf_nonneg c))
      (Nat.cast_nonneg _)
  · exact div_nonneg
      (List.sum_nonneg (by
        intro x hx
        obtain ⟨c, _, hc⟩ := List.mem_map.mp hx
        exact hc ▸ lossOf_nonneg c))
      (Nat.cast_nonneg _)

/-- The RSI formula is bounded in [0, 100] for nonnegative average gain
and positive average loss. -/
lemma rsi_formula_bounds (g l : ℚ) (hg : 0 ≤ g) (hl : 0 < l) :
    0 ≤ 100 - 100 / (1 + g / l) ∧ 100 - 100 / (1 + g / l) ≤ 100 := by
  have hrs : 0 ≤ g / l := div_nonneg hg hl.le
  have h1 : (0 : ℚ) < 1 + g / l := by linarith
  have hle : 100 / (1 + g / l) ≤ 100 := div_le_self (by norm_num) (by linarith)
  have hpos : 0 ≤ 100 / (1 + g / l) := div_nonneg (by norm_num) h1.le
  constructor <;> linarith

/-- C7: for every period ≥ 1, CalculateRSI returns exactly 50.0 (not an
error) when fewer than period+1 bars are supplied; returns exactly 100.0
when the smoothed average loss is zero; and in every other case returns a
value in [0, 100]. -/
theorem calculateRSI_props (bars : List OHLCV) (period : ℕ) (hp : 1 ≤ period) :
    (bars.length < period + 1 → CalculateRSI bars period = .ok 50.0) ∧
    (¬ bars.length < period + 1 →
      (rsiAverages (extractCloses bars) period).2 = 0 →
      CalculateRSI bars period = .ok 100.0) ∧
    (∀ x, CalculateRSI bars period = .ok x → 0 ≤ x ∧ x ≤ 100) := by
  have hp0 : ¬ period = 0 := by omega
  refine ⟨?_, ?_, ?_⟩
  · intro hlen
    simp [CalculateRSI, hp0, hlen]
  · intro hlen hzero
    simp [CalculateRSI, hp0, hlen, hzero]
  · intro x hx
    rw [CalculateRSI] at hx
    rw [if_neg hp0] at hx
    by_cases hlen : bars.length < period + 1
    · rw [if_pos hlen] at hx
      obtain rfl : (50.0 : ℚ) = x := by
        simpa using hx
      norm_num
    · rw [if_neg hlen] at hx
      simp only at hx
      by_cases hzero : (rsiAverages (extractCloses bars) period).2 = 0
      · rw [if_pos hzero] at hx
        obtain rfl : (100.0 : ℚ) = x := by
          simpa using hx
        norm_num
      · rw [if_neg hzero] at hx
        obtain rfl : (100.0 : ℚ) - 100.0 / (1.0 + (rsiAverages (extractCloses bars) period).1 /
            (rsiAverages (extractCloses bars) period).2) = x := by
          simpa using hx
        have hnn := rsiAverages_nonneg (extractCloses bars) period
        have hlpos : 0 < (rsiAverages (extractCloses bars) period).2 :=
          lt_of_le_of_ne hnn.2 (Ne.symm hzero)
        have := rsi_formula_bounds _ _ hnn.1 hlpos
        constructor <;> [linarith [this.1]; linarith [this.2]]

/-- C7 witness: one bar with period 1 is insufficient history, giving the
neutral 50.0, which lies in [0, 100]. -/
theorem calculateRSI_props_witness :
    CalculateRSI [⟨0, 10, 10, 10, 10, 0⟩] 1 = .ok 50.0 ∧
    (0 ≤ (50.0 : ℚ) ∧ (50.0 : ℚ) ≤ 100) :=
  ⟨(calculateRSI_props [⟨0, 10, 10, 10, 10, 0⟩] 1 (by norm_num)).1 (by norm_num),
   (calculateRSI_props [⟨0, 10, 10, 10, 10, 0⟩] 1 (by norm_num)).2.2 50.0
     ((calculateRSI_props [⟨0, 10, 10, 10, 10, 0⟩] 1 (by norm_num)).1 (by norm_num))⟩

/-- The two-sided if-clamp of Calculate52WeekPosition equals clamping to
[0, 1]. -/
lemma clamp_eq (q : ℚ) :
    (if (if q < 0 then (0 : ℚ) else q) > 1 then (1 : ℚ) else (if q < 0 then (0 : ℚ) else q)) =
      max 0 (min 1 q) := by
  rcases lt_or_le q 0 with h | h
  · rw [if_pos h, if_neg (by norm_num), min_eq_right (by linarith), max_eq_left h.le]
  · rw [if_neg (not_lt.mpr h)]
    rcases lt_or_le 1 q with h1 | h1
    · rw [if_pos h1, min_eq_left h1.le]
      norm_num
    · rw [if_neg (not_lt.mpr h1), min_eq_right h1, max_eq_right h]

/-- C8: Calculate52WeekPosition fails exactly when high < low; returns
exactly 0.5 when high = low; for high > low returns
(price-low)/(high-low) clamped to [0,1]; and for all high ≥ low the
result lies in [0,1]. -/
theorem position_in_range_props (current high low : ℚ) :
    ((∃ e, Calculate52WeekPosition current high low = .error e) ↔ high < low) ∧
    (high = low → Calculate52WeekPosition current high low = .ok 0.5) ∧
    (low < high → Calculate52WeekPosition current high low =
      .ok (max 0 (min 1 ((current - low) / (high - low))))) ∧
    (low ≤ high → ∀ x, Calculate52WeekPosition current high low = .ok x →
      0 ≤ x ∧ x ≤ 1) := by
  have hclamp : low < high → Calculate52WeekPosition current high low =
      .ok (max 0 (min 1 ((current - low) / (high - low)))) := by
    intro h
    have hne : ¬ high = low := fun heq => absurd (heq ▸ h) (lt_irrefl _)
    have hnlt : ¬ high < low := not_lt.mpr h.le
    simp only [Calculate52WeekPosition, if_neg hne, if_neg hnlt]
    exact congrArg Except.ok (clamp_eq _)
  refine ⟨⟨?_, ?_⟩, ?_, hclamp, ?_⟩
  · rintro ⟨e, he⟩
    by_cases h1 : high = low
    · simp [Calculate52WeekPosition, h1] at he
    · by_cases h2 : high < low
      · exact h2
      · simp [Calculate52WeekPosition, h1, h2] at he
  · intro h
    have hne : ¬ high = low := fun heq => absurd (heq ▸ h) (lt_irrefl _)
    exact ⟨"high must be >= low", by simp [Calculate52WeekPosition, hne, h]⟩
  · intro h
    simp [Calculate52WeekPosition, h]
  · intro h x hx
    by_cases heq : high = low
    · rw [Calculate52WeekPosition, if_pos heq] at hx
      obtain rfl : (0.5 : ℚ) = x := by simpa using hx
      norm_num
    · have hlt : low < high := lt_of_le_of_ne h (fun e => heq e.symm)
      rw [hclamp hlt] at hx
      obtain rfl : max 0 (min 1 ((current - low) / (high - low))) = x := by
        simpa using hx
      exact ⟨le_max_left _ _, max_le (by norm_num) (min_le_left _ _)⟩

/-- C8 witness: a concrete range with the price inside it. -/
theorem position_in_range_props_witness :
    Calculate52WeekPosition 75 100 50 = .ok (max 0 (min 1 ((75 - 50) / (100 - 50)))) ∧
    (0 ≤ max (0 : ℚ) (min 1 ((75 - 50) / (100 - 50))) ∧
     max (0 : ℚ) (min 1 ((75 - 50) / (100 - 50))) ≤ 1) :=
  ⟨(position_in_range_props 75 100 50).2.2.1 (by norm_num),
   (position_in_range_props 75 100 50).2.2.2 (by norm_num) _
     ((position_in_range_props 75 100 50).2.2.1 (by norm_num))⟩

/-- C9: CalculateWeeklyInvestment appends the signal's total score and,
whenever the length would exceed 12, evicts the oldest entries first,
keeping the 12 most recent scores (the new window is a suffix of the
appended window of length min(len+1, 12)); no other Fund State Machine
operation modifies the window. -/
theorem recentScores_window_fifo (st : FundState) (signal : TradeSignal) (s : ℚ) :
    (calculateWeeklyInvestment st signal).1.recentScores.length =
      min (st.recentScores.length + 1) 12 ∧
    List.IsSuffix (calculateWeeklyInvestment st signal).1.recentScores
      (st.recentScores ++ [signal.totalScore]) ∧
    (st.recentScores.length < 12 →
      (calculateWeeklyInvestment st signal).1.recentScores =
        st.recentScores ++ [signal.totalScore]) ∧
    (calculateBottomFishInvestment st s).1.recentScores = st.recentScores ∧
    (monthlyReplenish st).recentScores = st.recentScores ∧
    (quarterlyRebalance st).1.recentScores = st.recentScores ∧
    (resetWeeklyFlags st).recentScores = st.recentScores := by
  refine ⟨?_, ?_, ?_, ?_, rfl, ?_, rfl⟩
  · simp only [calculateWeeklyInvestment]
    split_ifs with h <;>
      simp only [List.length_drop, List.length_append, List.length_singleton] at h ⊢ <;>
      omega
  · simp only [calculateWeeklyInvestment]
    split_ifs with h
    · exact List.drop_suffix _ _
    · exact List.suffix_refl _
  · intro hlen
    simp only [calculateWeeklyInvestment]
    rw [if_neg (by simp only [List.length_append, List.length_singleton]; omega)]
  · simp only [calculateBottomFishInvestment]
    split_ifs <;> rfl
  · simp only [quarterlyRebalance]
    split_ifs <;> rfl

/-- C9 witness: the window operations at a concrete state and signal. -/
theorem recentScores_window_fifo_witness :
    (calculateWeeklyInvestment sampleState sampleSignal).1.recentScores.length =
      min (sampleState.recentScores.length + 1) 12 ∧
    List.IsSuffix (calculateWeeklyInvestment sampleState sampleSignal).1.recentScores
      (sampleState.recentScores ++ [sampleSignal.totalScore]) ∧
    (sampleState.recentScores.length < 12 →
      (calculateWeeklyInvestment sampleState sampleSignal).1.recentScores =
        sampleState.recentScores ++ [sampleSignal.totalScore]) ∧
    (calculateBottomFishInvestment sampleState 0).1.recentScores =
      sampleState.recentScores ∧
    (monthlyReplenish sampleState).recentScores = sampleState.recentScores ∧
    (quarterlyRebalance sampleState).1.recentScores = sampleState.recentScores ∧
    (resetWeeklyFlags sampleState).recentScores = sampleState.recentScores :=
  recentScores_window_fifo sampleState sampleSignal 0

/-- pushScore keeps the slice header inside the backing array. -/
lemma pushScore_wf (b : ScoresBuf) (x : ℚ) (hwf : b.WF) : (pushScore b x).WF := by
  unfold ScoresBuf.WF at hwf ⊢
  simp only [pushScore]
  split_ifs <;>
    simp only [List.length_append, List.length_take, List.length_drop,
      List.length_singleton] <;>
    omega

/-- pushScore advances the one-past-the-end position by exactly one. -/
lemma pushScore_end (b : ScoresBuf) (x : ℚ) :
    (pushScore b x).start + (pushScore b x).len = b.start + b.len + 1 := by
  simp only [pushScore]
  split_ifs with h <;> dsimp only <;> omega

/-- pushScore writes only at array position start+len: every entry below
the current end of the slice is untouched. -/
lemma pushScore_agree (b : ScoresBuf) (x : ℚ) (hwf : b.WF) (i : ℕ)
    (hi : i < b.start + b.len) :
    (pushScore b x).arr[i]? = b.arr[i]? := by
  have harr : (pushScore b x).arr =
      b.arr.take (b.start + b.len) ++ [x] ++ b.arr.drop (b.start + b.len + 1) := by
    simp only [pushScore]
    split_ifs <;> rfl
  unfold ScoresBuf.WF at hwf
  rw [harr]
  rw [List.getElem?_append_left (by
    simp only [List.length_append, List.length_take, List.length_singleton]
    omega)]
  rw [List.getElem?_append_left (by
    simp only [List.length_take]
    omega)]
  exact List.getElem?_take_of_lt hi

/-- A whole run of pushScore operations never rewrites an entry that lies
below the end of the slice as it was when the run started. -/
lemma foldl_pushScore_agree (xs : List ℚ) (b : ScoresBuf) (hwf : b.WF) (i : ℕ)
    (hi : i < b.start + b.len) :
    (xs.foldl pushScore b).arr[i]? = b.arr[i]? := by
  induction xs generalizing b with
  | nil => rfl
  | cons x xs ih =>
      rw [List.foldl_cons]
      have h1 := pushScore_wf b x hwf
      have h2 := pushScore_end b x
      rw [ih (pushScore b x) h1 (by omega)]
      exact pushScore_agree b x hwf i hi

/-- C10: a GetState snapshot is observationally immutable.  GetState
copies the FundState struct, so the snapshot holds a copy of the
RecentScores slice header (start, len) over the shared backing array;
subsequent CalculateWeeklyInvestment calls (the only operations that
write to the array) append at position start+len and re-slice without
writing, so the elements the snapshot header reads never change. -/
theorem getState_snapshot_immutable (b : ScoresBuf) (xs : List ℚ) (hwf : b.WF) :
    viewSlice (xs.foldl pushScore b).arr b.start b.len = viewSlice b.arr b.start b.len := by
  apply List.ext_getElem?
  intro i
  unfold viewSlice
  by_cases hi : i < b.len
  · rw [List.getElem?_take_of_lt hi, List.getElem?_take_of_lt hi,
      List.getElem?_drop, List.getElem?_drop]
    exact foldl_pushScore_agree xs b hwf (b.start + i) (by omega)
  · have h1 : (((xs.foldl pushScore b).arr.drop b.start).take b.len).length ≤ i := by
      simp only [List.length_take, List.length_drop]
      omega
    have h2 : ((b.arr.drop b.start).take b.len).length ≤ i := by
      simp only [List.length_take, List.length_drop]
      omega
    rw [List.getElem?_eq_none h1, List.getElem?_eq_none h2]

/-- C10 witness: a snapshot of a full 3-element window survives two
subsequent pushes unchanged. -/
theorem getState_snapshot_immutable_witness :
    viewSlice (([4, 5] : List ℚ).foldl pushScore ⟨[1, 2, 3], 0, 3⟩).arr 0 3 =
      viewSlice [1, 2, 3] 0 3 :=
  getState_snapshot_immutable ⟨[1, 2, 3], 0, 3⟩ [4, 5] (by norm_num [ScoresBuf.WF])

end MarketSentinel
